import Mathlib

/-!
Shallow embedding of the cost-analytics core of the AI-Cost-Optimization-Dashboard
repository: the trend/forecast engine (src/cost_forecaster.py), the anomaly
detector (src/anomaly_detector.py), the savings ledger (src/savings_tracker.py)
and the multi-account aggregator (src/multi_account_analyzer.py).

Modelling conventions:
- Python floats are modelled as real numbers (`ℝ`) where the code takes square
  roots, and as rationals (`ℚ`) in the aggregator, which only adds, divides and
  compares.  `round(x, n)` is modelled at the decimal level as round-half-to-even
  on `x * 10^n`, and `int(x)` as truncation toward zero.
- Python dicts with optional keys are modelled as structures with `Option`
  fields, and functions that can raise return `Except String _`.
- Presentational fields (formatted message strings, current-time date stamps)
  are omitted or threaded as explicit arguments; they carry no logic.
-/

/-- Python `int(x)` truncates toward zero. -/
noncomputable def pyTrunc (x : ℝ) : ℤ :=
  if 0 ≤ x then ⌊x⌋ else ⌈x⌉

/-- Round-half-to-even to the nearest integer, as Python `round` does. -/
noncomputable def roundHalfEven (x : ℝ) : ℤ :=
  let f := ⌊x⌋
  let r := x - (f : ℝ)
  if r < 1 / 2 then f
  else if 1 / 2 < r then f + 1
  else if f % 2 = 0 then f else f + 1

/-- Python `round(x, 2)` at the decimal level. -/
noncomputable def pyRound2 (x : ℝ) : ℝ :=
  (roundHalfEven (x * 100) : ℝ) / 100

/-- Python `round(x, 1)` at the decimal level. -/
noncomputable def pyRound1 (x : ℝ) : ℝ :=
  (roundHalfEven (x * 10) : ℝ) / 10

/-- A currency amount that is a whole number of cents (the spec's data model
treats amounts as currency values). -/
def isCents (x : ℝ) : Prop :=
  ∃ m : ℤ, x * 100 = (m : ℝ)

/-- Python `min` over a nonempty list (0 as an unreachable default). -/
def listMin : List ℝ → ℝ
  | [] => 0
  | x :: xs => xs.foldl (fun a b => min a b) x

/-- Python `max` over a nonempty list (0 as an unreachable default). -/
def listMax : List ℝ → ℝ
  | [] => 0
  | x :: xs => xs.foldl (fun a b => max a b) x

/-- One element of the `daily_costs` list: `{'date': 'YYYY-MM-DD', 'cost': float}`. -/
structure DailyCost where
  date : String
  cost : ℝ

/-- Result dict of `CostForecaster.analyze_trend`.  The insufficient-data
sentinel dict only carries `trend`, `average_daily` and `growth_rate`; the
remaining keys exist only in the full result and are modelled as `Option`. -/
structure TrendStats where
  trend : String
  average_daily : ℝ
  growth_rate : ℝ
  volatility : Option ℝ
  min_daily : Option ℝ
  max_daily : Option ℝ
  total_period : Option ℝ

/-- Translation of `CostForecaster.analyze_trend` (src/cost_forecaster.py:31-86). -/
noncomputable def analyze_trend (daily_costs : List DailyCost) : TrendStats :=
  if daily_costs.length < 7 then
    { trend := "insufficient_data", average_daily := 0, growth_rate := 0,
      volatility := none, min_daily := none, max_daily := none, total_period := none }
  else
    let costs := daily_costs.map (fun d => d.cost)
    let average_daily : ℝ := costs.sum / (costs.length : ℝ)
    let mid_point : ℕ := costs.length / 2
    let first_half_avg : ℝ := (costs.take mid_point).sum / (mid_point : ℝ)
    let second_half_avg : ℝ := (costs.drop mid_point).sum / ((costs.length - mid_point : ℕ) : ℝ)
    let growth_rate : ℝ :=
      if 0 < first_half_avg then ((second_half_avg - first_half_avg) / first_half_avg) * 100 else 0
    let trend : String :=
      if |growth_rate| < 5 then ("stable")
      else if 0 < growth_rate then ("increasing") else ("decreasing")
    let variance : ℝ := (costs.map (fun x => (x - average_daily) ^ 2)).sum / (costs.length : ℝ)
    let std_dev : ℝ := Real.sqrt variance
    let volatility : ℝ := if 0 < average_daily then std_dev / average_daily * 100 else 0
    { trend := trend,
      average_daily := pyRound2 average_daily,
      growth_rate := pyRound2 growth_rate,
      volatility := some (pyRound2 volatility),
      min_daily := some (pyRound2 (listMin costs)),
      max_daily := some (pyRound2 (listMax costs)),
      total_period := some (pyRound2 costs.sum) }

/-- Full result dict of `CostForecaster.simple_forecast` (the `assumptions`
list of formatted strings is presentational and omitted). -/
structure ForecastResult where
  forecast_days : ℕ
  projected_total : ℝ
  projected_daily_avg : ℝ
  monthly_run_rate : ℝ
  confidence : String
  trend : String
  growth_rate : ℝ
  volatility : ℝ

/-- Either the insufficient-data error dict or a full forecast dict. -/
inductive ForecastOut where
  | insufficient (error : String) (min_days_required : ℕ)
  | ok (f : ForecastResult)

/-- Translation of `CostForecaster.simple_forecast` (src/cost_forecaster.py:179-234).
The `cost_data` dict is modelled by its `daily_costs` entry; `none` stands for
a dict without the `'daily_costs'` key. -/
noncomputable def simple_forecast (cost_data : Option (List DailyCost)) (forecast_days : ℕ) :
    ForecastOut :=
  match cost_data with
  | none => ForecastOut.insufficient ("Insufficient data for forecasting") 7
  | some daily_costs =>
    if daily_costs.length < 7 then
      ForecastOut.insufficient ("Insufficient data for forecasting") 7
    else
      let trend := analyze_trend daily_costs
      let avg_daily := trend.average_daily
      let growth_rate := trend.growth_rate / 100
      let projected_daily := avg_daily * (1 + growth_rate / 2)
      let forecast_total := projected_daily * (forecast_days : ℝ)
      let monthly_run_rate := projected_daily * 30
      let vol := trend.volatility.getD 0
      let confidence : String :=
        if vol < 10 then ("High") else if vol < 25 then ("Medium") else ("Low")
      ForecastOut.ok
        { forecast_days := forecast_days,
          projected_total := pyRound2 forecast_total,
          projected_daily_avg := pyRound2 projected_daily,
          monthly_run_rate := pyRound2 monthly_run_rate,
          confidence := confidence,
          trend := trend.trend,
          growth_rate := trend.growth_rate,
          volatility := vol }

/-- Alert dict of `CostForecaster.budget_alert` (the formatted
`estimated_date` and `recommendation` strings are presentational and omitted). -/
structure BudgetAlertInfo where
  severity : String
  monthly_budget : ℝ
  projected_spend : ℝ
  overage : ℝ
  overage_percent : ℝ
  days_until_exceeded : ℤ

/-- Within-budget dict of `CostForecaster.budget_alert`. -/
structure BudgetOkInfo where
  severity : String
  monthly_budget : ℝ
  projected_spend : ℝ
  buffer : ℝ
  buffer_percent : ℝ
  status : String

/-- The three dict shapes `budget_alert` can return. -/
inductive BudgetOut where
  | insufficient (error : String) (min_days_required : ℕ)
  | alert (a : BudgetAlertInfo)
  | ok (o : BudgetOkInfo)

/-- Translation of `CostForecaster.budget_alert` (src/cost_forecaster.py:236-287).
Both result branches divide by `monthly_budget`; when it is zero Python raises
`ZeroDivisionError`, modelled as `Except.error`. -/
noncomputable def budget_alert (cost_data : Option (List DailyCost)) (monthly_budget : ℝ) :
    Except String BudgetOut :=
  match simple_forecast cost_data 30 with
  | ForecastOut.insufficient e m => Except.ok (BudgetOut.insufficient e m)
  | ForecastOut.ok forec =>
    let projected_monthly := forec.monthly_run_rate
    if monthly_budget < projected_monthly then
      if monthly_budget = 0 then Except.error ("float division by zero")
      else
        let overage := projected_monthly - monthly_budget
        let overage_pct := overage / monthly_budget * 100
        let daily_avg := forec.projected_daily_avg
        let days_to_budget : ℤ :=
          if 0 < daily_avg then pyTrunc (monthly_budget / daily_avg) else 30
        Except.ok (BudgetOut.alert
          { severity := if 20 < overage_pct then ("high") else ("medium"),
            monthly_budget := monthly_budget,
            projected_spend := projected_monthly,
            overage := pyRound2 overage,
            overage_percent := pyRound1 overage_pct,
            days_until_exceeded := days_to_budget })
    else
      if monthly_budget = 0 then Except.error ("float division by zero")
      else
        let buffer := monthly_budget - projected_monthly
        let buffer_pct := buffer / monthly_budget * 100
        Except.ok (BudgetOut.ok
          { severity := "low",
            monthly_budget := monthly_budget,
            projected_spend := projected_monthly,
            buffer := pyRound2 buffer,
            buffer_percent := pyRound1 buffer_pct,
            status := "On track - within budget" })

/-- Translation of `_mean` (src/anomaly_detector.py:12-13). -/
noncomputable def pyMean (values : List ℝ) : ℝ :=
  if values = [] then 0 else values.sum / (values.length : ℝ)

/-- Translation of `_stddev` (src/anomaly_detector.py:16-20), population form. -/
noncomputable def pyStddev (values : List ℝ) (mean : ℝ) : ℝ :=
  if values = [] then 0
  else Real.sqrt ((values.map (fun x => (x - mean) ^ 2)).sum / (values.length : ℝ))

/-- Translation of `_percentile` (src/anomaly_detector.py:23-32): linear
interpolation on the sorted values.  `int(k)` truncates; `k ≥ 0` at both call
sites so this is a floor. -/
noncomputable def pyPercentile (values : List ℝ) (p : ℝ) : ℝ :=
  if values = [] then 0
  else
    let sorted_vals := values.mergeSort (fun a b => decide (a ≤ b))
    let k : ℝ := ((sorted_vals.length - 1 : ℕ) : ℝ) * p
    let f : ℕ := (pyTrunc k).toNat
    let c : ℕ := min (f + 1) (sorted_vals.length - 1)
    if f = c then sorted_vals.getD f 0
    else sorted_vals.getD f 0 * ((c : ℝ) - k) + sorted_vals.getD c 0 * (k - (f : ℝ))

/-- One entry of the `anomalies` list of `detect_anomalies`. -/
structure AnomalyRec where
  date : String
  cost : ℝ
  z_score : ℝ
  severity : String
  reason : String

/-- The `summary` dict of `detect_anomalies`; keys that appear in only one of
the two dict shapes are modelled as `Option`. -/
structure AnomalySummary where
  status : String
  message : Option String
  average_daily : Option ℝ
  stddev : Option ℝ
  q1 : Option ℝ
  q3 : Option ℝ

/-- Result of `detect_anomalies`. -/
structure DetectOut where
  anomalies : List AnomalyRec
  summary : AnomalySummary

/-- Per-point z-score of the detection loop:
`z = (cost - avg) / std if std > 0 else 0.0`. -/
noncomputable def zScoreOf (avg std cost : ℝ) : ℝ :=
  if 0 < std then (cost - avg) / std else 0

/-- Flag condition of the detection loop: `is_z or is_iqr`. -/
noncomputable def flaggedP (z_threshold avg std upper_iqr : ℝ) (day : DailyCost) : Prop :=
  z_threshold ≤ zScoreOf avg std day.cost ∨ upper_iqr < day.cost

noncomputable instance (t avg std upper : ℝ) (day : DailyCost) :
    Decidable (flaggedP t avg std upper day) :=
  inferInstanceAs (Decidable (t ≤ zScoreOf avg std day.cost ∨ upper < day.cost))

/-- The anomaly record appended for a flagged day: severity is `high` iff
`z ≥ 3.5` or `cost > Q3 + 3·IQR`, and the reason is `z-score` whenever the
z-test tripped (checked first), else `iqr`. -/
noncomputable def mkAnomaly (z_threshold avg std q3 iqr : ℝ) (day : DailyCost) : AnomalyRec :=
  { date := day.date,
    cost := pyRound2 day.cost,
    z_score := pyRound2 (zScoreOf avg std day.cost),
    severity := if 7 / 2 ≤ zScoreOf avg std day.cost ∨ q3 + 3 * iqr < day.cost
                then ("high") else ("medium"),
    reason := if z_threshold ≤ zScoreOf avg std day.cost then ("z-score") else ("iqr") }

/-- Translation of `detect_anomalies` (src/anomaly_detector.py:35-96).
The accumulation loop is a left fold appending flagged points in order. -/
noncomputable def detect_anomalies (daily_costs : List DailyCost) (z_threshold : ℝ) : DetectOut :=
  if daily_costs.length < 7 then
    { anomalies := [],
      summary := { status := "insufficient_data",
                   message := some ("Need at least 7 days to detect anomalies"),
                   average_daily := none, stddev := none, q1 := none, q3 := none } }
  else
    let costs := daily_costs.map (fun d => d.cost)
    let avg := pyMean costs
    let std := pyStddev costs avg
    let q1 := pyPercentile costs (25 / 100)
    let q3 := pyPercentile costs (75 / 100)
    let iqr := q3 - q1
    let upper_iqr := q3 + 3 / 2 * iqr
    let anomalies := daily_costs.foldl (fun acc day =>
      if flaggedP z_threshold avg std upper_iqr day then
        acc ++ [mkAnomaly z_threshold avg std q3 iqr day]
      else acc) []
    { anomalies := anomalies,
      summary := { status := if anomalies.isEmpty then ("none") else ("ok"),
                   message := none,
                   average_daily := some (pyRound2 avg),
                   stddev := some (pyRound2 std),
                   q1 := some (pyRound2 q1),
                   q3 := some (pyRound2 q3) } }

/-- One row of the `recommendations` table (src/savings_tracker.py:42-58).
Columns that start out NULL are `Option`. -/
structure Row where
  id : ℕ
  created_date : String
  account_name : String
  recommendation_type : String
  title : String
  description : String
  estimated_monthly_savings : ℝ
  risk_level : String
  effort : String
  status : String
  implemented_date : Option String
  actual_monthly_savings : Option ℝ
  notes : Option String

/-- In-memory model of the SavingsTracker database: the `recommendations`
table plus the AUTOINCREMENT counter (first id is 1). -/
structure TrackerState where
  rows : List Row
  nextId : ℕ

/-- The empty database created by `_init_database`. -/
def emptyTracker : TrackerState :=
  { rows := [], nextId := 1 }

/-- Translation of `SavingsTracker.add_recommendation` (src/savings_tracker.py:75-122);
`now` stands for `datetime.now().strftime(...)`.  Returns the new row id and
the updated store. -/
def add_recommendation (s : TrackerState) (now title recommendation_type : String)
    (estimated_savings : ℝ) (account_name description risk_level effort : String) :
    ℕ × TrackerState :=
  let rec_id := s.nextId
  (rec_id,
   { rows := s.rows ++
       [{ id := rec_id, created_date := now, account_name := account_name,
          recommendation_type := recommendation_type, title := title,
          description := description, estimated_monthly_savings := estimated_savings,
          risk_level := risk_level, effort := effort, status := "pending",
          implemented_date := none, actual_monthly_savings := none, notes := none }],
     nextId := rec_id + 1 })

/-- Translation of `SavingsTracker.mark_implemented` (src/savings_tracker.py:124-161):
an unconditional `UPDATE ... WHERE id = ?`; success is `rowcount > 0`. -/
def mark_implemented (s : TrackerState) (rec_id : ℕ) (actual_savings : Option ℝ)
    (notes now : String) : Bool × TrackerState :=
  let updated := s.rows.map (fun r =>
    if r.id = rec_id then
      { r with status := ("implemented"), implemented_date := some now,
               actual_monthly_savings := actual_savings, notes := some notes }
    else r)
  let rowcount := (s.rows.filter (fun r => decide (r.id = rec_id))).length
  (decide (0 < rowcount), { rows := updated, nextId := s.nextId })

/-- Translation of `SavingsTracker.mark_rejected` (src/savings_tracker.py:163-189):
sets only `status` and `notes`, again with no status precondition. -/
def mark_rejected (s : TrackerState) (rec_id : ℕ) (reason : String) :
    Bool × TrackerState :=
  let updated := s.rows.map (fun r =>
    if r.id = rec_id then { r with status := ("rejected"), notes := some reason } else r)
  let rowcount := (s.rows.filter (fun r => decide (r.id = rec_id))).length
  (decide (0 < rowcount), { rows := updated, nextId := s.nextId })

/-- Translation of `SavingsTracker.get_recommendations` (src/savings_tracker.py:299-328):
optional equality filter on status, then `ORDER BY created_date DESC`. -/
def get_recommendations (s : TrackerState) (status : Option String) : List Row :=
  let selected : List Row := match status with
    | some st => s.rows.filter (fun r => decide (r.status = st))
    | none => s.rows
  selected.mergeSort (fun a b => decide (b.created_date ≤ a.created_date))

/-- Result dict of `SavingsTracker.get_roi_summary`. -/
structure ROISummary where
  total_recommendations : ℕ
  implemented : ℕ
  rejected : ℕ
  pending : ℕ
  implementation_rate : ℝ
  total_estimated_savings : ℝ
  implemented_estimated_savings : ℝ
  total_actual_savings : ℝ
  forecast_accuracy : ℝ
  annual_projected_savings : ℝ

/-- The rows feeding the forecast-accuracy computation:
`WHERE status = 'implemented' AND actual_monthly_savings IS NOT NULL`. -/
noncomputable def accuracyRows (s : TrackerState) : List Row :=
  s.rows.filter (fun r =>
    decide (r.status = "implemented" ∧ r.actual_monthly_savings ≠ none))

/-- Translation of `SavingsTracker.get_roi_summary` (src/savings_tracker.py:230-297).
When the accuracy rows exist but their estimated savings sum to zero, the
Python division `avg_diff / (sum(est)/len)` raises `ZeroDivisionError`,
modelled as `Except.error`. -/
noncomputable def get_roi_summary (s : TrackerState) : Except String ROISummary :=
  let rows := s.rows
  let total := rows.length
  let implemented := (rows.filter (fun r => decide (r.status = "implemented"))).length
  let rejected := (rows.filter (fun r => decide (r.status = "rejected"))).length
  let pending := (rows.filter (fun r => decide (r.status = "pending"))).length
  let total_estimated := (rows.map (fun r => r.estimated_monthly_savings)).sum
  let implemented_estimated := (rows.map (fun r =>
    if r.status = "implemented" then r.estimated_monthly_savings else 0)).sum
  let total_actual := (rows.map (fun r =>
    if r.status = "implemented" ∧ r.actual_monthly_savings ≠ none
    then r.actual_monthly_savings.getD 0 else 0)).sum
  let implementation_rate : ℝ :=
    if 0 < total then (implemented : ℝ) / (total : ℝ) * 100 else 0
  let accuracy_data := accuracyRows s
  let mkSummary : ℝ → ROISummary := fun accuracy =>
    { total_recommendations := total, implemented := implemented,
      rejected := rejected, pending := pending,
      implementation_rate := pyRound1 implementation_rate,
      total_estimated_savings := pyRound2 total_estimated,
      implemented_estimated_savings := pyRound2 implemented_estimated,
      total_actual_savings := pyRound2 total_actual,
      forecast_accuracy := pyRound1 accuracy,
      annual_projected_savings := pyRound2 (total_actual * 12) }
  if accuracy_data.isEmpty then Except.ok (mkSummary 0)
  else
    let est_sum := (accuracy_data.map (fun r => r.estimated_monthly_savings)).sum
    if est_sum = 0 then Except.error ("float division by zero")
    else
      let total_diff := (accuracy_data.map (fun r =>
        |r.estimated_monthly_savings - r.actual_monthly_savings.getD 0|)).sum
      let avg_diff := total_diff / (accuracy_data.length : ℝ)
      Except.ok (mkSummary (100 - avg_diff / (est_sum / (accuracy_data.length : ℝ)) * 100))

/-- Per-account entry of the multi-account result map.  A successful fetch
carries `total_cost` and the `by_service` breakdown (daily series and derived
presentation fields are omitted); both error shapes produced by
`get_multi_account_costs` (src/multi_account_analyzer.py:137 and 203-206) are
collapsed into `err`, tagged with the error text. -/
inductive AccountData where
  | ok (total_cost : ℚ) (by_service : List (String × ℚ))
  | err (error : String)
deriving DecidableEq

/-- Python `data.get('total_cost', 0)`: an errored source contributes 0
(its dict either has `'total_cost': 0.0` or lacks the key). -/
def getTotalCost : AccountData → ℚ
  | .ok t _ => t
  | .err _ => 0

/-- One cross-account recommendation dict (formatted `title` strings are
presentational and omitted; `accounts_affected` carries the named accounts). -/
structure CrossRec where
  rectype : String
  severity : String
  description : String
  accounts_affected : List String
  service : Option String
deriving DecidableEq

/-- Inner update of the `service_presence` dict: append `account` to the list
for `service`, inserting the key on first sight (dict insertion order). -/
def addServicePresence (m : List (String × List String)) (service account : String) :
    List (String × List String) :=
  if m.any (fun e => decide (e.1 = service)) then
    m.map (fun e => if e.1 = service then (e.1, e.2 ++ [account]) else e)
  else m ++ [(service, [account])]

/-- The `service_presence` map built by
`generate_cross_account_recommendations`: accounts without a `by_service` key
(exactly the errored ones) are skipped. -/
def servicePresence (accounts : List (String × AccountData)) :
    List (String × List String) :=
  accounts.foldl (fun acc a =>
    match a.2 with
    | .ok _ svc => svc.foldl (fun acc2 sp => addServicePresence acc2 sp.1 a.1) acc
    | .err _ => acc) []

/-- Translation of `MultiAccountAnalyzer.generate_cross_account_recommendations`
(src/multi_account_analyzer.py:257-315).  `costs` is sorted descending by
total (stable, mirroring Python `list.sort` with `reverse=True`); the
positivity guard is checked on the globally highest and lowest entries. -/
def generate_cross_account_recommendations (accounts : List (String × AccountData)) :
    List CrossRec :=
  let costs := (accounts.map (fun a => (a.1, getTotalCost a.2))).mergeSort
    (fun x y => decide (y.2 ≤ x.2))
  let imbalance : List CrossRec :=
    if 2 ≤ costs.length then
      match costs.head?, costs.getLast? with
      | some highest, some lowest =>
        if 0 < highest.2 ∧ 0 < lowest.2 then
          if 3 < highest.2 / lowest.2 then
            [{ rectype := "cost_imbalance", severity := "medium",
               description := "Investigate if workload distribution is appropriate",
               accounts_affected := [highest.1, lowest.1], service := none }]
          else []
        else []
      | _, _ => []
    else []
  let all_len := (accounts.map (fun a => a.1)).dedup.length
  let shared := ((servicePresence accounts).filter
      (fun e => decide (e.2.length = all_len ∧ 1 < all_len))).map
    (fun e => { rectype := ("shared_service_opportunity"), severity := ("low"),
                description := ("Consider shared or centralized resources to reduce duplicate costs"),
                accounts_affected := e.2, service := some e.1 })
  imbalance ++ shared

/-- Amounts of a daily-cost series, in chronological order. -/
def amounts (ds : List DailyCost) : List ℝ :=
  ds.map (fun d => d.cost)

/-- Mean of the amounts, as the spec words it. -/
noncomputable def specMean (ds : List DailyCost) : ℝ :=
  (amounts ds).sum / ((amounts ds).length : ℝ)

/-- Mean of the first half of the amounts (split at `floor(n/2)`). -/
noncomputable def specFirstHalfMean (ds : List DailyCost) : ℝ :=
  ((amounts ds).take ((amounts ds).length / 2)).sum / (((amounts ds).length / 2 : ℕ) : ℝ)

/-- Mean of the second half of the amounts (split at `floor(n/2)`). -/
noncomputable def specSecondHalfMean (ds : List DailyCost) : ℝ :=
  ((amounts ds).drop ((amounts ds).length / 2)).sum /
    (((amounts ds).length - (amounts ds).length / 2 : ℕ) : ℝ)

/-- Growth rate as the claim words it: split-half relative change in percent,
0 when the first-half mean is 0. -/
noncomputable def specGrowthRate (ds : List DailyCost) : ℝ :=
  if specFirstHalfMean ds = 0 then 0
  else (specSecondHalfMean ds - specFirstHalfMean ds) / specFirstHalfMean ds * 100

/-- Population standard deviation of the amounts. -/
noncomputable def specStddev (ds : List DailyCost) : ℝ :=
  Real.sqrt (((amounts ds).map (fun x => (x - specMean ds) ^ 2)).sum /
    ((amounts ds).length : ℝ))

/-- Volatility as the claim words it: stddev over mean in percent, 0 when the
mean is 0. -/
noncomputable def specVolatility (ds : List DailyCost) : ℝ :=
  if specMean ds = 0 then 0 else specStddev ds / specMean ds * 100

/-- Claim C1, stated as a predicate: the three insufficient-data sentinels. -/
noncomputable def insufficientSpec (ds : List DailyCost) (fd : ℕ) (t : ℝ) : Prop :=
  analyze_trend ds =
    { trend := "insufficient_data", average_daily := 0, growth_rate := 0,
      volatility := none, min_daily := none, max_daily := none, total_period := none } ∧
  simple_forecast (some ds) fd =
    ForecastOut.insufficient ("Insufficient data for forecasting") 7 ∧
  (detect_anomalies ds t).anomalies = [] ∧
  (detect_anomalies ds t).summary.status = "insufficient_data"

/-- Claim C2, stated as a predicate: the returned statistics realise the
spec's formulas and the trend label follows the sign/threshold rule. -/
noncomputable def trendSpec (ds : List DailyCost) : Prop :=
  (analyze_trend ds).average_daily = pyRound2 (specMean ds) ∧
  (analyze_trend ds).growth_rate = pyRound2 (specGrowthRate ds) ∧
  (analyze_trend ds).volatility = some (pyRound2 (specVolatility ds)) ∧
  (analyze_trend ds).trend =
    (if |specGrowthRate ds| < 5 then ("stable")
     else if 0 < specGrowthRate ds then ("increasing") else ("decreasing")) ∧
  (ds.length = 7 →
    ((amounts ds).take (ds.length / 2)).length = 3 ∧
    ((amounts ds).drop (ds.length / 2)).length = 4)

/-- A concrete 7-day series (constant cost 1) used to instantiate witnesses. -/
def sevenOnes : List DailyCost :=
  [⟨"2026-01-01", 1⟩, ⟨"2026-01-02", 1⟩, ⟨"2026-01-03", 1⟩, ⟨"2026-01-04", 1⟩,
   ⟨"2026-01-05", 1⟩, ⟨"2026-01-06", 1⟩, ⟨"2026-01-07", 1⟩]

/-- Claim C4, stated as a predicate: both forecasts succeed, their monthly run
rates agree, and the rate is the projected daily value times a fixed 30. -/
noncomputable def runRateSpec (ds : List DailyCost) (d1 d2 : ℕ) : Prop :=
  ∃ f1 f2 : ForecastResult,
    simple_forecast (some ds) d1 = ForecastOut.ok f1 ∧
    simple_forecast (some ds) d2 = ForecastOut.ok f2 ∧
    f1.monthly_run_rate = f2.monthly_run_rate ∧
    f1.monthly_run_rate =
      pyRound2 ((analyze_trend ds).average_daily *
        (1 + (analyze_trend ds).growth_rate / 100 / 2) * 30)

/-- Claim C3, stated as a predicate: the anomaly list is exactly the
chronological filter of the series by the claim's flag rule (z-score against
the threshold, or amount above `Q3 + 1.5·IQR`), each record carrying the
claim's severity and reason rules, and the summary status is `ok` iff at least
one anomaly was found, else `none`. -/
noncomputable def anomalySpec (ds : List DailyCost) (t : ℝ) : Prop :=
  let costs := amounts ds
  let meanA := costs.sum / (costs.length : ℝ)
  let stdA := Real.sqrt ((costs.map (fun x => (x - meanA) ^ 2)).sum / (costs.length : ℝ))
  let zA : DailyCost → ℝ := fun d => if stdA = 0 then 0 else (d.cost - meanA) / stdA
  let q1A := pyPercentile costs (25 / 100)
  let q3A := pyPercentile costs (75 / 100)
  let iqrA := q3A - q1A
  (detect_anomalies ds t).anomalies =
    (ds.filter (fun d => decide (t ≤ zA d ∨ q3A + 3 / 2 * iqrA < d.cost))).map (fun d =>
      { date := d.date, cost := pyRound2 d.cost, z_score := pyRound2 (zA d),
        severity := if 7 / 2 ≤ zA d ∨ q3A + 3 * iqrA < d.cost then ("high") else ("medium"),
        reason := if t ≤ zA d then ("z-score") else ("iqr") }) ∧
  ((detect_anomalies ds t).summary.status = "ok" ↔ (detect_anomalies ds t).anomalies ≠ []) ∧
  ((detect_anomalies ds t).summary.status = "none" ↔ (detect_anomalies ds t).anomalies = [])

/-- Amended claim C5, stated as a predicate: for a positive budget the alert
flag is raised iff the monthly run rate strictly exceeds the budget (equality
stays within budget); on alert the severity is `high` iff the overage
percentage exceeds 20, and days-until-exceeded is `floor(budget / daily_avg)`
when the reported projected daily average is positive, and the fallback 30
otherwise. -/
noncomputable def budgetSpec (ds : List DailyCost) (b : ℝ) : Prop :=
  ∃ f : ForecastResult, simple_forecast (some ds) 30 = ForecastOut.ok f ∧
    (if b < f.monthly_run_rate then
      budget_alert (some ds) b = Except.ok (BudgetOut.alert
        { severity := if 20 < (f.monthly_run_rate - b) / b * 100 then ("high") else ("medium"),
          monthly_budget := b,
          projected_spend := f.monthly_run_rate,
          overage := pyRound2 (f.monthly_run_rate - b),
          overage_percent := pyRound1 ((f.monthly_run_rate - b) / b * 100),
          days_until_exceeded :=
            if 0 < f.projected_daily_avg then ⌊b / f.projected_daily_avg⌋ else 30 })
     else ∃ o : BudgetOkInfo,
       budget_alert (some ds) b = Except.ok (BudgetOut.ok o) ∧ o.severity = "low")

/-- Claim C6, stated as a predicate: the add / list / mark-implemented / ROI
round trip.  After adding, the new id is listed as pending; after marking it
implemented the id leaves the pending view, appears in the implemented view,
and the implemented-estimated total of the ROI summary grows by exactly the
estimated amount recorded at creation, whatever actual amount was passed. -/
noncomputable def ledgerRoundTripSpec (s : TrackerState) (now title rtype : String)
    (e : ℝ) (acct desc risk eff : String) (act : Option ℝ) (nts now2 : String) : Prop :=
  let added := add_recommendation s now title rtype e acct desc risk eff
  let rid := added.1
  let s1 := added.2
  let marked := mark_implemented s1 rid act nts now2
  let s2 := marked.2
  (∃ r ∈ get_recommendations s1 (some ("pending")), r.id = rid ∧ r.status = "pending") ∧
  marked.1 = true ∧
  (∀ r ∈ get_recommendations s2 (some ("pending")), r.id ≠ rid) ∧
  (∃ r ∈ get_recommendations s2 (some ("implemented")), r.id = rid) ∧
  (∀ r1 r2 : ROISummary,
    get_roi_summary s1 = Except.ok r1 → get_roi_summary s2 = Except.ok r2 →
    r2.implemented_estimated_savings = r1.implemented_estimated_savings + e)

/-- Claim C10, stated as a predicate: `mark_implemented` and `mark_rejected`
rewrite any existing row unconditionally (returning `true`), whatever its
current status — the pending-to-terminal lifecycle is not a store invariant. -/
def markSpec (s : TrackerState) (rid : ℕ) (act : Option ℝ) (nts rsn now : String) : Prop :=
  ((mark_implemented s rid act nts now).1 = true ∧
   (mark_implemented s rid act nts now).2.rows = s.rows.map (fun r =>
      if r.id = rid then
        { r with status := ("implemented"), implemented_date := some now,
                 actual_monthly_savings := act, notes := some nts }
      else r)) ∧
  ((mark_rejected s rid rsn).1 = true ∧
   (mark_rejected s rid rsn).2.rows = s.rows.map (fun r =>
      if r.id = rid then { r with status := ("rejected"), notes := some rsn } else r))

/-- Claim C7, stated as a predicate: `forecast_accuracy` is 0 when no
implemented row carries an actual amount, and otherwise realises
`100 - mean(|estimated - actual|) / mean(estimated) * 100` over exactly those
rows (the division is meaningful only when the estimates do not sum to 0,
which is the unguarded case of claim C9). -/
noncomputable def roiAccuracySpec (s : TrackerState) : Prop :=
  (accuracyRows s = [] →
    ∃ r, get_roi_summary s = Except.ok r ∧ r.forecast_accuracy = 0) ∧
  (accuracyRows s ≠ [] →
    ((accuracyRows s).map (fun r => r.estimated_monthly_savings)).sum ≠ 0 →
    ∃ r, get_roi_summary s = Except.ok r ∧
      r.forecast_accuracy = pyRound1 (100 -
        ((accuracyRows s).map (fun r =>
          |r.estimated_monthly_savings - r.actual_monthly_savings.getD 0|)).sum /
          ((accuracyRows s).length : ℝ) /
        (((accuracyRows s).map (fun r => r.estimated_monthly_savings)).sum /
          ((accuracyRows s).length : ℝ)) * 100))

/-- A store holding exactly the two implemented recommendations of the spec's
ROI-accuracy scenario: (estimated, actual) = (100, 90) and (50, 60). -/
def roiPairState : TrackerState :=
  { rows := [Row.mk 1 ("2026-01-01 09:00:00") ("default") ("EC2_rightsizing")
      ("Downsize EC2") ("") 100 ("low") ("quick_win") ("implemented")
      (some ("2026-02-01 09:00:00")) (some 90) (some ("")),
    Row.mk 2 ("2026-01-02 09:00:00") ("default") ("S3_lifecycle")
      ("Tier S3 storage") ("") 50 ("low") ("quick_win") ("implemented")
      (some ("2026-02-02 09:00:00")) (some 60) (some (""))],
    nextId := 3 }

/-- A store holding one rejected recommendation, to exercise C10. -/
def rejectedRowState : TrackerState :=
  { rows := [Row.mk 1 ("2026-01-01 09:00:00") ("default") ("RDS_cleanup")
      ("Delete old snapshot") ("") 10 ("low") ("quick_win") ("rejected")
      none none (some ("not needed"))],
    nextId := 2 }

/-- The reachable store of claim C9: one recommendation added with estimated
savings 0, then marked implemented with an actual of 5. -/
def zeroEstState : TrackerState :=
  (mark_implemented
    (add_recommendation emptyTracker ("2026-01-01 09:00:00") ("Zero estimate") ("misc")
      0 ("default") ("") ("medium") ("medium")).2
    (add_recommendation emptyTracker ("2026-01-01 09:00:00") ("Zero estimate") ("misc")
      0 ("default") ("") ("medium") ("medium")).1
    (some 5) ("") ("2026-01-02 09:00:00")).2

/-- Per-source well-formedness from the data model: a `by_service` mapping has
no duplicate contributor names (Python dict keys). -/
def svcNamesNodup : AccountData → Prop
  | .ok _ svc => (svc.map (fun sp => sp.1)).Nodup
  | .err _ => True

/-- The successful sources of a multi-account result map. -/
def okAccounts (accounts : List (String × AccountData)) : List (String × AccountData) :=
  accounts.filter (fun a => match a.2 with | .ok _ _ => true | .err _ => false)

/-- A three-source result map: two healthy sources that share contributor
`EC2` and have a 10x cost imbalance, plus one errored source. -/
def errExample : List (String × AccountData) :=
  [("a", AccountData.ok 100 [("EC2", 100)]),
   ("b", AccountData.ok 10 [("EC2", 10)]),
   ("c", AccountData.err ("AccessDenied"))]

theorem roundHalfEven_intCast (m : ℤ) : roundHalfEven (m : ℝ) = m := by
  simp [roundHalfEven]

theorem pyRound2_eq_self {x : ℝ} (m : ℤ) (h : x * 100 = (m : ℝ)) : pyRound2 x = x := by
  unfold pyRound2
  rw [h, roundHalfEven_intCast]
  rw [← h]
  ring

theorem pyRound1_eq_self {x : ℝ} (m : ℤ) (h : x * 10 = (m : ℝ)) : pyRound1 x = x := by
  unfold pyRound1
  rw [h, roundHalfEven_intCast]
  rw [← h]
  ring

theorem pyRound2_of_isCents {x : ℝ} (h : isCents x) : pyRound2 x = x := by
  obtain ⟨m, hm⟩ := h
  exact pyRound2_eq_self m hm

theorem isCents_zero : isCents 0 := ⟨0, by norm_num⟩

theorem isCents_add {x y : ℝ} (hx : isCents x) (hy : isCents y) : isCents (x + y) := by
  obtain ⟨m, hm⟩ := hx
  obtain ⟨n, hn⟩ := hy
  exact ⟨m + n, by push_cast; linarith⟩

theorem isCents_sum (l : List ℝ) (h : ∀ x ∈ l, isCents x) : isCents l.sum := by
  induction l with
  | nil => simpa using isCents_zero
  | cons a l ih =>
    rw [List.sum_cons]
    exact isCents_add (h a (by simp)) (ih (fun x hx => h x (List.mem_cons_of_mem a hx)))

/-- C1: for every daily-cost series with fewer than 7 points, `analyze_trend`
returns the insufficient-data sentinel with zeroed fields, `simple_forecast`
returns the insufficient-data result with a minimum-required-days hint of 7,
and `detect_anomalies` returns no anomalies and summary status
`insufficient_data`; all three are total functions, so none raises. -/
theorem short_series_sentinels (ds : List DailyCost) (fd : ℕ) (t : ℝ)
    (h : ds.length < 7) : insufficientSpec ds fd t := by
  refine ⟨?_, ?_, ?_, ?_⟩ <;>
    simp [insufficientSpec, analyze_trend, simple_forecast, detect_anomalies, h]

theorem short_series_sentinels_witness :
    ([⟨"2026-01-01", 1⟩, ⟨"2026-01-02", 2⟩, ⟨"2026-01-03", 3⟩] : List DailyCost).length < 7 ∧
    insufficientSpec [⟨"2026-01-01", 1⟩, ⟨"2026-01-02", 2⟩, ⟨"2026-01-03", 3⟩] 30 (5 / 2) :=
  ⟨by decide, short_series_sentinels _ 30 (5 / 2) (by decide)⟩

theorem if_pos_flip {a b : ℝ} (ha : 0 ≤ a) :
    (if 0 < a then b else 0) = if a = 0 then 0 else b := by
  rcases eq_or_lt_of_le ha with h | h
  · simp [← h]
  · rw [if_pos h, if_neg h.ne']

/-- C2: for every daily-cost series with at least 7 points (amounts are
non-negative currency values per the data model), `analyze_trend` realises the
spec's formulas: mean, split-half growth rate with its zero guard, volatility
with its zero guard, the sign/threshold trend label, and the 3/4 split for
exactly 7 points. -/
theorem analyze_trend_formulas (ds : List DailyCost) (h7 : 7 ≤ ds.length)
    (hnn : ∀ p ∈ ds, 0 ≤ p.cost) : trendSpec ds := by
  have hlt : ¬ ds.length < 7 := by omega
  have hc : ∀ x ∈ ds.map (fun d => d.cost), 0 ≤ x := by
    intro x hx
    obtain ⟨p, hp, rfl⟩ := List.mem_map.mp hx
    exact hnn p hp
  have htake : (0:ℝ) ≤ ((ds.map (fun d => d.cost)).take
      ((ds.map (fun d => d.cost)).length / 2)).sum :=
    List.sum_nonneg (fun x hx => hc x (List.mem_of_mem_take hx))
  have hfh : (0:ℝ) ≤ ((ds.map (fun d => d.cost)).take
      ((ds.map (fun d => d.cost)).length / 2)).sum /
      (((ds.map (fun d => d.cost)).length / 2 : ℕ) : ℝ) :=
    div_nonneg htake (by positivity)
  have hmean : (0:ℝ) ≤ (ds.map (fun d => d.cost)).sum /
      ((ds.map (fun d => d.cost)).length : ℝ) :=
    div_nonneg (List.sum_nonneg hc) (by positivity)
  unfold trendSpec
  simp only [analyze_trend, if_neg hlt, specGrowthRate, specVolatility, specMean,
    specFirstHalfMean, specSecondHalfMean, specStddev, amounts]
  refine ⟨trivial, ?_, ?_, ?_, ?_⟩
  · rw [if_pos_flip hfh]
  · rw [if_pos_flip hmean]
  · rw [if_pos_flip hfh]
  · intro hlen7
    constructor <;> simp [List.length_take, List.length_drop, hlen7]

theorem pyStddev_nonneg (l : List ℝ) (m : ℝ) : 0 ≤ pyStddev l m := by
  rw [pyStddev]
  split
  · exact le_refl 0
  · exact Real.sqrt_nonneg _

theorem anomaly_foldl (t avg std q3 iqr upper : ℝ) (l : List DailyCost)
    (acc : List AnomalyRec) :
    l.foldl (fun a day =>
      if flaggedP t avg std upper day then a ++ [mkAnomaly t avg std q3 iqr day] else a) acc =
    acc ++ (l.filter (fun d => decide (flaggedP t avg std upper d))).map
      (mkAnomaly t avg std q3 iqr) := by
  induction l generalizing acc with
  | nil => simp
  | cons a l ih =>
    rw [List.foldl_cons]
    by_cases h : flaggedP t avg std upper a
    · rw [if_pos h, ih, List.filter_cons_of_pos (by simpa using h), List.map_cons]
      simp
    · rw [if_neg h, ih, List.filter_cons_of_neg (by simpa using h)]

/-- C3: for every series with at least 7 points the detector flags exactly the
points whose z-score reaches the threshold or whose amount exceeds
`Q3 + 1.5·IQR`, in chronological order, with the claimed severity and reason
rules, and the summary status is `ok` iff any anomaly was found, else `none`. -/
theorem detect_anomalies_formulas (ds : List DailyCost) (t : ℝ) (h7 : 7 ≤ ds.length) :
    anomalySpec ds t := by
  have hlt : ¬ ds.length < 7 := by omega
  unfold anomalySpec
  simp only [amounts]
  simp only [detect_anomalies, if_neg hlt]
  simp only [anomaly_foldl, List.nil_append]
  set costs := ds.map (fun d => d.cost) with hcostsdef
  have hne2 : costs ≠ [] := by
    rw [hcostsdef]
    intro h
    have hl := congrArg List.length h
    rw [List.length_map, List.length_nil] at hl
    omega
  set meanA := costs.sum / (costs.length : ℝ) with hmeanA
  have havg : pyMean costs = meanA := by
    rw [pyMean, if_neg hne2, hmeanA]
  simp only [havg]
  set stdA := Real.sqrt ((costs.map (fun x => (x - meanA) ^ 2)).sum / (costs.length : ℝ))
    with hstdA
  have hstd : pyStddev costs meanA = stdA := by
    rw [pyStddev, if_neg hne2, hstdA]
  simp only [hstd]
  have hstd0 : 0 ≤ stdA := by
    rw [hstdA]
    exact Real.sqrt_nonneg _
  have hzz : ∀ c : ℝ, zScoreOf meanA stdA c = if stdA = 0 then 0 else (c - meanA) / stdA := by
    intro c
    rw [zScoreOf, if_pos_flip hstd0]
  set q1v := pyPercentile costs (25 / 100) with hq1v
  set q3v := pyPercentile costs (75 / 100) with hq3v
  refine ⟨?_, ?_, ?_⟩
  · have hpred : ∀ d ∈ ds,
        (decide (flaggedP t meanA stdA (q3v + 3 / 2 * (q3v - q1v)) d)) =
        (decide (t ≤ (if stdA = 0 then 0 else (d.cost - meanA) / stdA) ∨
          q3v + 3 / 2 * (q3v - q1v) < d.cost)) := by
      intro d _
      rw [decide_eq_decide]
      unfold flaggedP
      rw [hzz d.cost]
    rw [List.filter_congr hpred]
    apply List.map_congr_left
    intro d _
    unfold mkAnomaly
    rw [hzz d.cost]
  · generalize (List.map (mkAnomaly t meanA stdA q3v (q3v - q1v))
      (List.filter (fun d => decide (flaggedP t meanA stdA (q3v + 3 / 2 * (q3v - q1v)) d)) ds)) = L
    cases L <;> simp
  · generalize (List.map (mkAnomaly t meanA stdA q3v (q3v - q1v))
      (List.filter (fun d => decide (flaggedP t meanA stdA (q3v + 3 / 2 * (q3v - q1v)) d)) ds)) = L
    cases L <;> simp

theorem analyze_trend_formulas_witness :
    7 ≤ sevenOnes.length ∧ (∀ p ∈ sevenOnes, 0 ≤ p.cost) ∧ trendSpec sevenOnes :=
  ⟨by decide,
   by intro p hp; fin_cases hp <;> norm_num,
   analyze_trend_formulas sevenOnes (by decide)
     (by intro p hp; fin_cases hp <;> norm_num)⟩

theorem detect_anomalies_formulas_witness :
    7 ≤ sevenOnes.length ∧ anomalySpec sevenOnes (5 / 2) :=
  ⟨by decide, detect_anomalies_formulas sevenOnes (5 / 2) (by decide)⟩

/-- C4: for every series with at least 7 points and any two horizons, the
monthly run rate of `simple_forecast` is the same: it is always the projected
daily value times a fixed 30 and never depends on `forecast_days`. -/
theorem monthly_run_rate_invariant (ds : List DailyCost) (d1 d2 : ℕ) (h7 : 7 ≤ ds.length) :
    runRateSpec ds d1 d2 := by
  have hlt : ¬ ds.length < 7 := by omega
  unfold runRateSpec
  simp only [simple_forecast, if_neg hlt]
  exact ⟨_, _, rfl, rfl, rfl, rfl⟩

theorem monthly_run_rate_invariant_witness :
    7 ≤ sevenOnes.length ∧ runRateSpec sevenOnes 10 45 :=
  ⟨by decide, monthly_run_rate_invariant sevenOnes 10 45 (by decide)⟩

theorem pyTrunc_eq_floor {x : ℝ} (h : 0 ≤ x) : pyTrunc x = ⌊x⌋ := by
  rw [pyTrunc, if_pos h]

/-- C5 (amended): with at least 7 points and a positive monthly budget,
`budget_alert` raises the alert flag iff the monthly run rate strictly exceeds
the budget, the severity is `high` iff the overage percentage exceeds 20, and
`days_until_exceeded` is the floor of budget over the reported projected daily
average (with the source's fallback of 30 when that average is not positive). -/
theorem budget_alert_amended (ds : List DailyCost) (b : ℝ) (h7 : 7 ≤ ds.length)
    (hb : 0 < b) : budgetSpec ds b := by
  have hlt : ¬ ds.length < 7 := by omega
  have hex : ∃ f, simple_forecast (some ds) 30 = ForecastOut.ok f := by
    simp only [simple_forecast, if_neg hlt]
    exact ⟨_, rfl⟩
  obtain ⟨f, hf⟩ := hex
  refine ⟨f, hf, ?_⟩
  have hbne : b ≠ 0 := ne_of_gt hb
  by_cases halert : b < f.monthly_run_rate
  · rw [if_pos halert, budget_alert, hf]
    have hdays : (if 0 < f.projected_daily_avg
          then pyTrunc (b / f.projected_daily_avg) else (30:ℤ)) =
        (if 0 < f.projected_daily_avg then ⌊b / f.projected_daily_avg⌋ else 30) := by
      by_cases hd : 0 < f.projected_daily_avg
      · rw [if_pos hd, if_pos hd, pyTrunc_eq_floor (le_of_lt (div_pos hb hd))]
      · rw [if_neg hd, if_neg hd]
    simp only [if_pos halert, if_neg hbne, hdays]
  · rw [if_neg halert, budget_alert, hf]
    simp only [if_neg halert, if_neg hbne]
    exact ⟨_, rfl, rfl⟩

theorem budget_alert_amended_witness :
    7 ≤ sevenOnes.length ∧ (0:ℝ) < 50 ∧ budgetSpec sevenOnes 50 :=
  ⟨by decide, by norm_num, budget_alert_amended sevenOnes 50 (by decide) (by norm_num)⟩

theorem analyze_trend_sevenOnes :
    analyze_trend sevenOnes =
      { trend := "stable", average_daily := 1, growth_rate := 0, volatility := some 0,
        min_daily := some 1, max_daily := some 1, total_period := some 7 } := by
  have hr1 : pyRound2 (1 : ℝ) = 1 := pyRound2_eq_self 100 (by norm_num)
  have hr0 : pyRound2 (0 : ℝ) = 0 := pyRound2_eq_self 0 (by norm_num)
  have hr7 : pyRound2 (7 : ℝ) = 7 := pyRound2_eq_self 700 (by norm_num)
  rw [analyze_trend, if_neg (by decide : ¬ sevenOnes.length < 7)]
  norm_num [sevenOnes, listMin, listMax, Real.sqrt_zero, hr1, hr0, hr7]

theorem simple_forecast_sevenOnes :
    simple_forecast (some sevenOnes) 30 =
      ForecastOut.ok
        { forecast_days := 30, projected_total := 30, projected_daily_avg := 1,
          monthly_run_rate := 30, confidence := "High", trend := "stable",
          growth_rate := 0, volatility := 0 } := by
  have hr1 : pyRound2 (1 : ℝ) = 1 := pyRound2_eq_self 100 (by norm_num)
  have hr30 : pyRound2 (30 : ℝ) = 30 := pyRound2_eq_self 3000 (by norm_num)
  rw [simple_forecast]
  rw [if_neg (by decide : ¬ sevenOnes.length < 7), analyze_trend_sevenOnes]
  norm_num [hr1, hr30]

/-- Counterexample to C5 as stated: at monthly budget 0 (the claim quantifies
over every monthly budget) with a 7-point series whose monthly run rate is 30,
the claim demands a returned alert with `alert == true`; the code instead
raises `ZeroDivisionError` at the overage-percent division. -/
theorem budget_alert_zero_budget_counterexample :
    budget_alert (some sevenOnes) 0 = Except.error ("float division by zero") ∧
    (¬ ∃ a : BudgetAlertInfo,
        budget_alert (some sevenOnes) 0 = Except.ok (BudgetOut.alert a)) ∧
    (∃ f, simple_forecast (some sevenOnes) 30 = ForecastOut.ok f ∧
      f.monthly_run_rate = 30 ∧ (0:ℝ) < f.monthly_run_rate) := by
  have hmain : budget_alert (some sevenOnes) 0 = Except.error ("float division by zero") := by
    rw [budget_alert, simple_forecast_sevenOnes]
    norm_num
  refine ⟨hmain, ?_, ?_⟩
  · rintro ⟨a, ha⟩
    rw [hmain] at ha
    exact Except.noConfusion ha
  · exact ⟨_, simple_forecast_sevenOnes, rfl, by norm_num⟩

theorem map_update_not_present (rows : List Row) (rid : ℕ) (f : Row → Row)
    (h : ∀ r ∈ rows, r.id ≠ rid) :
    rows.map (fun r => if r.id = rid then f r else r) = rows := by
  induction rows with
  | nil => rfl
  | cons a l ih =>
    rw [List.map_cons, if_neg (h a (by simp)),
      ih (fun r hr => h r (List.mem_cons_of_mem a hr))]

theorem isCents_if_implemented (rows : List Row)
    (hc : ∀ r ∈ rows, isCents r.estimated_monthly_savings) :
    isCents ((rows.map (fun r =>
      if r.status = "implemented" then r.estimated_monthly_savings else 0)).sum) := by
  apply isCents_sum
  intro x hx
  obtain ⟨r, hr, rfl⟩ := List.mem_map.mp hx
  split
  · exact hc r hr
  · exact isCents_zero

theorem roi_implemented_estimated (s : TrackerState) (r : ROISummary)
    (h : get_roi_summary s = Except.ok r) :
    r.implemented_estimated_savings =
      pyRound2 ((s.rows.map (fun rr =>
        if rr.status = "implemented" then rr.estimated_monthly_savings else 0)).sum) := by
  simp only [get_roi_summary] at h
  split_ifs at h <;>
    first
      | exact Except.noConfusion h
      | (simp only [Except.ok.injEq] at h
         subst h
         rfl)

theorem mem_get_recommendations (s : TrackerState) (st : String) (r : Row) :
    r ∈ get_recommendations s (some st) ↔ r.status = st ∧ r ∈ s.rows := by
  unfold get_recommendations
  rw [(List.mergeSort_perm _ _).mem_iff, List.mem_filter]
  simp [and_comm]

theorem mark_implemented_succeeds (s : TrackerState) (rid : ℕ) (act : Option ℝ)
    (nts now : String) (h : ∃ r ∈ s.rows, r.id = rid) :
    (mark_implemented s rid act nts now).1 = true := by
  obtain ⟨r, hr, hid⟩ := h
  have hmem : r ∈ s.rows.filter (fun rr => decide (rr.id = rid)) :=
    List.mem_filter.mpr ⟨hr, by simp [hid]⟩
  simp only [mark_implemented]
  rw [decide_eq_true_eq]
  exact List.length_pos.mpr (List.ne_nil_of_mem hmem)

theorem mark_rejected_succeeds (s : TrackerState) (rid : ℕ) (rsn : String)
    (h : ∃ r ∈ s.rows, r.id = rid) :
    (mark_rejected s rid rsn).1 = true := by
  obtain ⟨r, hr, hid⟩ := h
  have hmem : r ∈ s.rows.filter (fun rr => decide (rr.id = rid)) :=
    List.mem_filter.mpr ⟨hr, by simp [hid]⟩
  simp only [mark_rejected]
  rw [decide_eq_true_eq]
  exact List.length_pos.mpr (List.ne_nil_of_mem hmem)

/-- C6: from any store whose rows respect the id counter and hold cent-valued
estimates, adding a recommendation lists it as pending; after marking that id
implemented (with any actual amount), the id disappears from the pending view,
shows up in the implemented view, and the ROI summary's implemented-estimated
total grows by exactly the estimate recorded at creation. -/
theorem ledger_round_trip (s : TrackerState) (now title rtype : String) (e : ℝ)
    (acct desc risk eff : String) (act : Option ℝ) (nts now2 : String)
    (hinv : ∀ r ∈ s.rows, r.id < s.nextId)
    (hc : ∀ r ∈ s.rows, isCents r.estimated_monthly_savings)
    (he : isCents e) :
    ledgerRoundTripSpec s now title rtype e acct desc risk eff act nts now2 := by
  have hney : ∀ r ∈ s.rows, r.id ≠ s.nextId := fun r hr => ne_of_lt (hinv r hr)
  have hmap : s.rows.map (fun r =>
      if r.id = s.nextId then
        { r with status := ("implemented"), implemented_date := some now2,
                 actual_monthly_savings := act, notes := some nts }
      else r) = s.rows :=
    map_update_not_present s.rows s.nextId _ hney
  set nr : Row := Row.mk s.nextId now acct rtype title desc e risk eff ("pending")
    none none none with hnr
  set nr2 : Row := Row.mk s.nextId now acct rtype title desc e risk eff ("implemented")
    (some now2) act (some nts) with hnr2
  have hadd : add_recommendation s now title rtype e acct desc risk eff =
      (s.nextId, { rows := s.rows ++ [nr], nextId := s.nextId + 1 }) := rfl
  have hmark : mark_implemented { rows := s.rows ++ [nr], nextId := s.nextId + 1 }
      s.nextId act nts now2 =
      (true, { rows := s.rows ++ [nr2], nextId := s.nextId + 1 }) := by
    simp only [mark_implemented, Prod.mk.injEq]
    refine ⟨?_, ?_⟩
    · rw [decide_eq_true_eq]
      apply List.length_pos.mpr
      apply List.ne_nil_of_mem
      show nr ∈ _
      exact List.mem_filter.mpr
        ⟨List.mem_append_right _ (by simp), by simp [hnr]⟩
    · simp only [TrackerState.mk.injEq, and_true]
      rw [List.map_append, hmap, List.map_cons, List.map_nil]
      simp [hnr, hnr2]
  simp only [ledgerRoundTripSpec]
  rw [hadd]
  simp only []
  rw [hmark]
  simp only []
  refine ⟨?_, trivial, ?_, ?_, ?_⟩
  · refine ⟨nr, ?_, rfl, rfl⟩
    rw [mem_get_recommendations]
    exact ⟨rfl, List.mem_append_right _ (by simp)⟩
  · intro r hr
    rw [mem_get_recommendations] at hr
    obtain ⟨hst, hmem⟩ := hr
    rcases List.mem_append.mp hmem with hmem | hmem
    · exact ne_of_lt (hinv r hmem)
    · rw [List.mem_singleton] at hmem
      rw [hmem] at hst
      rw [hnr2] at hst
      simp at hst
  · refine ⟨nr2, ?_, rfl⟩
    rw [mem_get_recommendations]
    exact ⟨rfl, List.mem_append_right _ (by simp)⟩
  · intro r1 r2 h1 h2
    rw [roi_implemented_estimated _ _ h1, roi_implemented_estimated _ _ h2]
    simp only [List.map_append, List.sum_append, List.map_cons, List.map_nil,
      List.sum_cons, List.sum_nil, hnr, hnr2]
    have hC0 : isCents ((s.rows.map (fun r =>
        if r.status = "implemented" then r.estimated_monthly_savings else 0)).sum) :=
      isCents_if_implemented s.rows hc
    simp only [if_true, if_neg (by decide : ¬ ("pending" : String) = "implemented"), add_zero]
    rw [pyRound2_of_isCents (isCents_add hC0 he), pyRound2_of_isCents hC0]

theorem ledger_round_trip_witness :
    (∀ r ∈ emptyTracker.rows, r.id < emptyTracker.nextId) ∧
    (∀ r ∈ emptyTracker.rows, isCents r.estimated_monthly_savings) ∧
    isCents 45 ∧
    ledgerRoundTripSpec emptyTracker ("2026-01-05 09:00:00") ("Downsize EC2")
      ("EC2_rightsizing") 45 ("default") ("") ("low") ("quick_win")
      (some 120) ("resized") ("2026-02-01 09:00:00") :=
  ⟨by simp [emptyTracker], by simp [emptyTracker], ⟨4500, by norm_num⟩,
   ledger_round_trip emptyTracker ("2026-01-05 09:00:00") ("Downsize EC2")
     ("EC2_rightsizing") 45 ("default") ("") ("low") ("quick_win")
     (some 120) ("resized") ("2026-02-01 09:00:00")
     (by simp [emptyTracker]) (by simp [emptyTracker]) ⟨4500, by norm_num⟩⟩

/-- C10: `mark_implemented` and `mark_rejected` update any existing row
unconditionally — whatever its current status — returning `true` and
overwriting `notes` (and, for `mark_implemented`, `actual_monthly_savings`
and `implemented_date`); the pending-to-terminal exactly-once lifecycle is
not enforced by the store. -/
theorem mark_updates_any_status (s : TrackerState) (rid : ℕ) (act : Option ℝ)
    (nts rsn now : String) (h : ∃ r ∈ s.rows, r.id = rid) :
    markSpec s rid act nts rsn now :=
  ⟨⟨mark_implemented_succeeds s rid act nts now h, rfl⟩,
   ⟨mark_rejected_succeeds s rid rsn h, rfl⟩⟩

theorem mark_updates_any_status_witness :
    (∃ r ∈ rejectedRowState.rows, r.id = 1) ∧
    markSpec rejectedRowState 1 (some 120) ("late adoption") ("still rejected")
      ("2026-03-01 09:00:00") :=
  ⟨⟨_, List.mem_cons_self _ _, rfl⟩,
   mark_updates_any_status rejectedRowState 1 (some 120) ("late adoption")
     ("still rejected") ("2026-03-01 09:00:00") ⟨_, List.mem_cons_self _ _, rfl⟩⟩

/-- C7: `get_roi_summary` computes `forecast_accuracy` as
`100 - mean(|estimated - actual|) / mean(estimated) * 100` over exactly the
implemented rows with a non-null actual amount, and returns 0 when no such
rows exist. -/
theorem roi_forecast_accuracy (s : TrackerState) : roiAccuracySpec s := by
  constructor
  · intro hempty
    simp only [get_roi_summary]
    rw [if_pos (by simp [List.isEmpty_iff, hempty])]
    refine ⟨_, rfl, ?_⟩
    exact pyRound1_eq_self 0 (by norm_num)
  · intro hne hsum
    simp only [get_roi_summary]
    rw [if_neg (by simp [List.isEmpty_iff, hne]), if_neg hsum]
    exact ⟨_, rfl, rfl⟩

theorem roundHalfEven_eq_of_gt_half (x : ℝ) (n : ℤ) (hf : ⌊x⌋ = n)
    (h : 1 / 2 < x - (n : ℝ)) : roundHalfEven x = n + 1 := by
  simp only [roundHalfEven, hf]
  rw [if_neg (by linarith), if_pos h]

theorem roi_forecast_accuracy_witness :
    accuracyRows roiPairState ≠ [] ∧
    ((accuracyRows roiPairState).map (fun r => r.estimated_monthly_savings)).sum ≠ 0 ∧
    (∃ r, get_roi_summary roiPairState = Except.ok r ∧ r.forecast_accuracy = 867 / 10) := by
  have hacc : accuracyRows roiPairState = roiPairState.rows := by
    simp [accuracyRows, roiPairState, List.filter]
  have h1 : accuracyRows roiPairState ≠ [] := by
    rw [hacc]
    simp [roiPairState]
  have h2 : ((accuracyRows roiPairState).map (fun r => r.estimated_monthly_savings)).sum ≠ 0 := by
    rw [hacc]
    simp [roiPairState]
    norm_num
  obtain ⟨r, hok, heq⟩ := (roi_forecast_accuracy roiPairState).2 h1 h2
  refine ⟨h1, h2, r, hok, ?_⟩
  rw [heq, hacc]
  have d1 : |(100:ℝ) - 90| = 10 := by
    rw [abs_of_nonneg] <;> norm_num
  have d2 : |(50:ℝ) - 60| = 10 := by
    rw [abs_sub_comm, abs_of_nonneg] <;> norm_num
  have harg : (100:ℝ) -
      ((roiPairState.rows).map (fun r =>
        |r.estimated_monthly_savings - r.actual_monthly_savings.getD 0|)).sum /
        ((roiPairState.rows).length : ℝ) /
      (((roiPairState.rows).map (fun r => r.estimated_monthly_savings)).sum /
        ((roiPairState.rows).length : ℝ)) * 100 = 260 / 3 := by
    simp [roiPairState, d1, d2]
    norm_num
  rw [harg]
  have h866 : ⌊(260:ℝ) / 3 * 10⌋ = 866 := by
    rw [Int.floor_eq_iff]
    norm_num
  rw [pyRound1, roundHalfEven_eq_of_gt_half _ 866 h866 (by norm_num)]
  norm_num

/-- C9: the reachable ledger state with a single implemented, actual-carrying
recommendation whose estimated savings are 0 makes `get_roi_summary` hit an
unguarded division by zero: the forecast-accuracy division by the estimate
mean is guarded only by the existence of such rows, not by a non-zero sum. -/
theorem roi_zero_estimate_div_error :
    get_roi_summary zeroEstState = Except.error ("float division by zero") := by
  have hacc : accuracyRows zeroEstState = zeroEstState.rows := by
    simp [accuracyRows, zeroEstState, emptyTracker, add_recommendation,
      mark_implemented, List.filter]
  have hnemp : ¬ (accuracyRows zeroEstState).isEmpty = true := by
    rw [hacc]
    simp [zeroEstState, emptyTracker, add_recommendation, mark_implemented]
  have hsum : ((accuracyRows zeroEstState).map (fun r => r.estimated_monthly_savings)).sum = 0 := by
    rw [hacc]
    simp [zeroEstState, emptyTracker, add_recommendation, mark_implemented]
  simp only [get_roi_summary]
  rw [if_neg hnemp, if_pos hsum]

theorem pairwise_rel_getLast {α : Type} {R : α → α → Prop} :
    ∀ l : List α, l.Pairwise R → ∀ a ∈ l, ∀ b, l.getLast? = some b → a = b ∨ R a b := by
  intro l
  induction l with
  | nil => intro _ a ha; simp at ha
  | cons x t ih =>
    intro hp a ha b hb
    rcases t with _ | ⟨y, t2⟩
    · simp at ha hb
      left
      rw [ha, ← hb]
    · rw [List.getLast?_cons_cons] at hb
      rw [List.pairwise_cons] at hp
      rcases List.mem_cons.mp ha with rfl | hmem
      · right
        exact hp.1 b (List.mem_of_mem_getLast? hb)
      · exact ih hp.2 a hmem b hb

theorem sorted_costs_getLast_nonpos (accounts : List (String × AccountData))
    (p : String × AccountData) (hp : p ∈ accounts) (e : String)
    (he : p.2 = AccountData.err e) (lowest : String × ℚ)
    (hl : ((accounts.map (fun a => (a.1, getTotalCost a.2))).mergeSort
      (fun x y => decide (y.2 ≤ x.2))).getLast? = some lowest) :
    lowest.2 ≤ 0 := by
  have hmem0 : (p.1, (0:ℚ)) ∈ accounts.map (fun a => (a.1, getTotalCost a.2)) := by
    refine List.mem_map.mpr ⟨p, hp, ?_⟩
    rw [he]
    rfl
  have hmem1 : (p.1, (0:ℚ)) ∈ (accounts.map (fun a => (a.1, getTotalCost a.2))).mergeSort
      (fun x y => decide (y.2 ≤ x.2)) :=
    (List.mergeSort_perm _ _).mem_iff.mpr hmem0
  have hpw := @List.sorted_mergeSort (String × ℚ)
    (fun x y : String × ℚ => decide (y.2 ≤ x.2))
    (fun a b c hab hbc => by
      rw [decide_eq_true_eq] at hab hbc ⊢
      exact le_trans hbc hab)
    (fun a b => by
      rcases le_total b.2 a.2 with h | h <;> simp [h])
    (accounts.map (fun a => (a.1, getTotalCost a.2)))
  rcases pairwise_rel_getLast _ hpw _ hmem1 lowest hl with heq | hrel
  · rw [← heq]
  · rw [decide_eq_true_eq] at hrel
    exact hrel

theorem svcFold_bound (name : String) (k : ℕ) :
    ∀ (svc : List (String × ℚ)) (acc : List (String × List String)),
    (svc.map (fun sp => sp.1)).Nodup →
    (∀ e ∈ acc, e.2.length ≤ if e.1 ∈ svc.map (fun sp => sp.1) then k else k + 1) →
    ∀ e ∈ svc.foldl (fun acc2 sp => addServicePresence acc2 sp.1 name) acc,
      e.2.length ≤ k + 1 := by
  intro svc
  induction svc with
  | nil =>
    intro acc _ hacc e he
    simp only [List.foldl_nil] at he
    have := hacc e he
    simpa using this
  | cons sp rest ih =>
    intro acc hnd hacc e he
    rw [List.foldl_cons] at he
    rw [List.map_cons, List.nodup_cons] at hnd
    refine ih _ hnd.2 ?_ e he
    intro e' he'
    rw [addServicePresence] at he'
    by_cases hex : acc.any (fun x => decide (x.1 = sp.1)) = true
    · rw [if_pos hex] at he'
      obtain ⟨e0, he0, heq⟩ := List.mem_map.mp he'
      have hb0 := hacc e0 he0
      rw [List.map_cons] at hb0
      by_cases hsame : e0.1 = sp.1
      · rw [if_pos hsame] at heq
        subst heq
        rw [if_pos (by rw [hsame]; exact List.mem_cons_self _ _)] at hb0
        simp only [List.length_append, List.length_singleton]
        rw [if_neg (by rw [hsame]; exact hnd.1)]
        omega
      · rw [if_neg hsame] at heq
        subst heq
        by_cases hin : e0.1 ∈ rest.map (fun sp => sp.1)
        · rw [if_pos hin]
          rw [if_pos (List.mem_cons_of_mem _ hin)] at hb0
          exact hb0
        · rw [if_neg hin]
          by_cases hin2 : e0.1 ∈ sp.1 :: rest.map (fun sp => sp.1)
          · rw [if_pos hin2] at hb0
            omega
          · rw [if_neg hin2] at hb0
            omega
    · rw [if_neg hex] at he'
      rcases List.mem_append.mp he' with hmem | hmem
      · have hb0 := hacc e' hmem
        rw [List.map_cons] at hb0
        by_cases hin : e'.1 ∈ rest.map (fun sp => sp.1)
        · rw [if_pos hin]
          rw [if_pos (List.mem_cons_of_mem _ hin)] at hb0
          exact hb0
        · rw [if_neg hin]
          by_cases hin2 : e'.1 ∈ sp.1 :: rest.map (fun sp => sp.1)
          · rw [if_pos hin2] at hb0
            omega
          · rw [if_neg hin2] at hb0
            omega
      · rw [List.mem_singleton] at hmem
        subst hmem
        rw [if_neg hnd.1]
        simp only [List.length_singleton]
        omega

theorem servicePresence_bound :
    ∀ (accounts : List (String × AccountData)) (acc : List (String × List String)) (k : ℕ),
    (∀ p ∈ accounts, svcNamesNodup p.2) →
    (∀ e ∈ acc, e.2.length ≤ k) →
    ∀ e ∈ accounts.foldl (fun ac a =>
        match a.2 with
        | AccountData.ok _ svc => svc.foldl (fun acc2 sp => addServicePresence acc2 sp.1 a.1) ac
        | AccountData.err _ => ac) acc,
      e.2.length ≤ k + (okAccounts accounts).length := by
  intro accounts
  induction accounts with
  | nil =>
    intro acc k _ hacc e he
    simp only [List.foldl_nil] at he
    simpa [okAccounts] using hacc e he
  | cons a rest ih =>
    intro acc k hnd hacc e he
    rw [List.foldl_cons] at he
    cases ha : a.2 with
    | ok t svc =>
      simp only [ha] at he
      have hnodup_svc : (svc.map (fun sp => sp.1)).Nodup := by
        have hx := hnd a (List.mem_cons_self _ _)
        rw [ha] at hx
        exact hx
      have hstep : ∀ e' ∈ svc.foldl (fun acc2 sp => addServicePresence acc2 sp.1 a.1) acc,
          e'.2.length ≤ k + 1 :=
        svcFold_bound a.1 k svc acc hnodup_svc (fun e' he' => by
          have := hacc e' he'
          split <;> omega)
      have hrec := ih _ (k + 1) (fun q hq => hnd q (List.mem_cons_of_mem a hq)) hstep e he
      have hok : (okAccounts (a :: rest)).length = (okAccounts rest).length + 1 := by
        simp [okAccounts, List.filter_cons, ha]
      omega
    | err msg =>
      simp only [ha] at he
      have hrec := ih acc k (fun q hq => hnd q (List.mem_cons_of_mem a hq)) hacc e he
      have hok : (okAccounts (a :: rest)).length = (okAccounts rest).length := by
        simp [okAccounts, List.filter_cons, ha]
      omega

theorem servicePresence_short (accounts : List (String × AccountData))
    (hnd : ∀ p ∈ accounts, svcNamesNodup p.2) :
    ∀ e ∈ servicePresence accounts, e.2.length ≤ (okAccounts accounts).length := by
  intro e he
  have := servicePresence_bound accounts [] 0 hnd (by simp) e (by simpa [servicePresence] using he)
  simpa using this

theorem okAccounts_lt (accounts : List (String × AccountData))
    (herr : ∃ p ∈ accounts, ∃ msg, p.2 = AccountData.err msg) :
    (okAccounts accounts).length < accounts.length := by
  rw [okAccounts, List.length_filter_lt_length_iff_exists]
  obtain ⟨p, hp, msg, hmsg⟩ := herr
  refine ⟨p, hp, ?_⟩
  rw [hmsg]
  simp

theorem cross_account_err_nil (accounts : List (String × AccountData))
    (hnodup : (accounts.map (fun a => a.1)).Nodup)
    (hsvc : ∀ p ∈ accounts, svcNamesNodup p.2)
    (herr : ∃ p ∈ accounts, ∃ msg, p.2 = AccountData.err msg) :
    generate_cross_account_recommendations accounts = [] := by
  obtain ⟨p, hp, msg, hmsg⟩ := herr
  simp only [generate_cross_account_recommendations]
  rw [List.append_eq_nil]
  constructor
  · by_cases h2 : 2 ≤ ((accounts.map (fun a => (a.1, getTotalCost a.2))).mergeSort
        (fun x y => decide (y.2 ≤ x.2))).length
    · rw [if_pos h2]
      cases hh : ((accounts.map (fun a => (a.1, getTotalCost a.2))).mergeSort
          (fun x y => decide (y.2 ≤ x.2))).head? with
      | none => rfl
      | some highest =>
        cases hl : ((accounts.map (fun a => (a.1, getTotalCost a.2))).mergeSort
            (fun x y => decide (y.2 ≤ x.2))).getLast? with
        | none => rfl
        | some lowest =>
          have hlow := sorted_costs_getLast_nonpos accounts p hp msg hmsg lowest hl
          show (if 0 < highest.2 ∧ 0 < lowest.2 then _ else ([] : List CrossRec)) = []
          rw [if_neg (by
            rintro ⟨_, hpos⟩
            exact absurd hlow (not_le.mpr hpos))]
    · rw [if_neg h2]
  · rw [List.map_eq_nil_iff, List.filter_eq_nil_iff]
    intro e he
    simp only [decide_eq_true_eq]
    rintro ⟨hlen, _⟩
    have hb := servicePresence_short accounts hsvc e he
    have hlt := okAccounts_lt accounts ⟨p, hp, msg, hmsg⟩
    rw [List.dedup_eq_self.mpr hnodup, List.length_map] at hlen
    omega

/-- C8 (amended): an errored source is retained in the result map but is NOT
excluded from the cross-source computations: it participates with total 0 (and
no contributors), so whenever at least one errored source is present, the
positivity guard on the global minimum suppresses the cost-imbalance insight
and the all-sources count can never be met, so no shared-contributor insight
is emitted either — `generate_cross_account_recommendations` returns the empty
list. -/
theorem cross_account_err_amended (accounts : List (String × AccountData))
    (hnodup : (accounts.map (fun a => a.1)).Nodup)
    (hsvc : ∀ q ∈ accounts, svcNamesNodup q.2)
    (herr : ∃ q ∈ accounts, ∃ msg, q.2 = AccountData.err msg) :
    generate_cross_account_recommendations accounts = [] ∧
    (∀ msg, getTotalCost (AccountData.err msg) = 0) :=
  ⟨cross_account_err_nil accounts hnodup hsvc herr, fun _ => rfl⟩

theorem cross_account_err_amended_witness :
    (errExample.map (fun a => a.1)).Nodup ∧
    (∀ q ∈ errExample, svcNamesNodup q.2) ∧
    (∃ q ∈ errExample, ∃ msg, q.2 = AccountData.err msg) ∧
    (generate_cross_account_recommendations errExample = [] ∧
     (∀ msg, getTotalCost (AccountData.err msg) = 0)) :=
  ⟨by simp [errExample],
   by intro q hq; fin_cases hq <;> simp [svcNamesNodup],
   ⟨("c", AccountData.err ("AccessDenied")), by simp [errExample], "AccessDenied", rfl⟩,
   cross_account_err_amended errExample (by simp [errExample])
     (by intro q hq; fin_cases hq <;> simp [svcNamesNodup])
     ⟨("c", AccountData.err ("AccessDenied")), by simp [errExample], "AccessDenied", rfl⟩⟩

/-- Counterexample to C8 as stated: in `errExample` the two non-error sources
have positive totals 100 and 10 (ratio 10 > 3) and share the contributor
`EC2`, so a computation restricted to non-error sources would emit both the
cost-imbalance insight and the shared-contributor insight; the code emits
neither, because the errored source participates with total 0 and counts
toward the all-sources requirement. -/
theorem cross_account_err_counterexample :
    (¬ ∃ r ∈ generate_cross_account_recommendations errExample,
        r.rectype = "cost_imbalance") ∧
    (¬ ∃ r ∈ generate_cross_account_recommendations errExample,
        r.rectype = "shared_service_opportunity") ∧
    (3:ℚ) < 100 / 10 := by
  have hnil := cross_account_err_nil errExample (by simp [errExample])
    (by intro q hq; fin_cases hq <;> simp [svcNamesNodup])
    ⟨("c", AccountData.err ("AccessDenied")), by simp [errExample], "AccessDenied", rfl⟩
  refine ⟨?_, ?_, by norm_num⟩ <;>
    · rw [hnil]
      rintro ⟨r, hr, _⟩
      exact absurd hr (List.not_mem_nil r)
